import Mathlib

/-!
# Verification of the Polars tutorial notebook
  (`2 - Basic Polars/solution/notebooks/EF01 - Polars Tutorial.ipynb`)

A shallow embedding of the notebook's dataframe pipelines.  The input
dataset (`power_generation.xlsx`, read in cell "df = pl.read_excel(...)")
has three columns:

  * `Date`                    — a datetime (modelled as day index, hour, minute);
  * `Actual Generation (GWh)` — a Float64 (modelled as ℚ);
  * `Primary Source`          — a string.

A dataframe is a list of rows.  Each notebook cell's method chain is
translated into a Lean function on such lists.  Where Polars leaves the
row order of a result unspecified (`unique()` and `sort()` both default
to `maintain_order=False`, so the order of rows that compare equal under
the sort key, and the enumeration order of `unique`, are not guaranteed),
the operation is modelled as a *relation* between input and admissible
outputs; deterministic functions are used where the subsequent
full-key sort makes every admissible execution produce the same table.
-/

/-- The `Date` column: a datetime, modelled as a calendar-day index plus
hour and minute of day.  `.dt.hour()` projects `hour`; `.dt.date()`
projects `day`. -/
structure Dt where
  day : ℤ
  hour : ℕ
  minute : ℕ
deriving DecidableEq, Repr

/-- One row of the input dataframe `df`: columns `Date`,
`Actual Generation (GWh)`, `Primary Source` (in this order). -/
structure Row where
  date : Dt
  generation : ℚ
  source : String
deriving DecidableEq, Repr

/-- Sum of a list of rationals (the semantics of Polars' `sum` over a
Float64 column without nulls). -/
def qsum (xs : List ℚ) : ℚ := xs.foldr (· + ·) 0

/-- Mean of a list of rationals (the semantics of Polars' `mean` over a
Float64 column without nulls). -/
def qmean (xs : List ℚ) : ℚ := qsum xs / xs.length

/-- First-occurrence deduplication: the distinct elements of `l` in order
of first appearance.  This is the enumeration order Polars produces for
`group_by` keys when order is maintained; for the pipelines below the
result is either re-sorted by a full key afterwards (making the choice
irrelevant) or only its set of elements is used. -/
def firstDedup [DecidableEq α] : List α → List α
  | [] => []
  | a :: l => a :: firstDedup (l.filter (fun b => b ≠ a))
termination_by l => l.length
decreasing_by
  simp only [List.length_cons]
  exact Nat.lt_succ_of_le (List.length_filter_le _ _)

theorem mem_firstDedup [DecidableEq α] (l : List α) (a : α) :
    a ∈ firstDedup l ↔ a ∈ l := by
  induction l using firstDedup.induct with
  | case1 => simp [firstDedup]
  | case2 b l ih =>
    rw [firstDedup]
    by_cases hab : a = b
    · subst hab; simp
    · simp only [List.mem_cons, ih, List.mem_filter, List.mem_cons]
      constructor
      · rintro (h | ⟨h, _⟩)
        · exact absurd h hab
        · exact Or.inr h
      · rintro (h | h)
        · exact absurd h hab
        · exact Or.inr ⟨h, by simpa using hab⟩

theorem nodup_firstDedup [DecidableEq α] (l : List α) :
    (firstDedup l).Nodup := by
  induction l using firstDedup.induct with
  | case1 => simp [firstDedup]
  | case2 b l ih =>
    rw [firstDedup]
    refine List.Nodup.cons ?_ ih
    intro hmem
    rw [mem_firstDedup] at hmem
    have := (List.mem_filter.mp hmem).2
    simp at this

/-- One row of `output_df` (the "Exporting Data" cell): columns `date`
(calendar date), `generation_gwh`, `source`, in the order produced by the
final `select`. -/
structure OutRow where
  date : ℤ
  generation_gwh : ℚ
  source : String
deriving DecidableEq, Repr

/-- Sort key of `output_df`'s `.sort('date', 'source')`: ascending by
`date`, ties broken ascending by `source`. -/
def outLe (a b : OutRow) : Prop :=
  a.date < b.date ∨ (a.date = b.date ∧ a.source ≤ b.source)

instance : DecidableRel outLe := fun a b => by
  unfold outLe; infer_instance

instance : IsTotal OutRow outLe where
  total a b := by
    unfold outLe
    rcases lt_trichotomy a.date b.date with h | h | h
    · exact Or.inl (Or.inl h)
    · rcases le_total a.source b.source with hs | hs
      · exact Or.inl (Or.inr ⟨h, hs⟩)
      · exact Or.inr (Or.inr ⟨h.symm, hs⟩)
    · exact Or.inr (Or.inl h)

instance : IsTrans OutRow outLe where
  trans a b c hab hbc := by
    unfold outLe at *
    rcases hab with h1 | ⟨h1, h1s⟩ <;> rcases hbc with h2 | ⟨h2, h2s⟩
    · exact Or.inl (h1.trans h2)
    · exact Or.inl (h2 ▸ h1)
    · exact Or.inl (h1 ▸ h2)
    · exact Or.inr ⟨h1.trans h2, h1s.trans h2s⟩

/-- The grouping key of `group_by('date', 'Primary Source')` after
`with_columns(date = pl.col('Date').dt.date())`: the calendar date paired
with the source. -/
def dateSourceKey (r : Row) : ℤ × String := (r.date.day, r.source)

/-- The `output_df` cell: add the calendar-date column, group by
(`date`, `Primary Source`), sum the generation column into
`generation_gwh`, select `date`, `generation_gwh`, `source` (renaming
`Primary Source` to `source`), and sort by (`date`, `source`).  Group keys
are enumerated in first-appearance order; because the sort key is the full
grouping key and group keys are pairwise distinct, every admissible Polars
execution produces this same table. -/
def output_df (df : List Row) : List OutRow :=
  List.insertionSort outLe
    ((firstDedup (df.map dateSourceKey)).map (fun k =>
      { date := k.1
        generation_gwh :=
          qsum ((df.filter (fun r => dateSourceKey r = k)).map (·.generation))
        source := k.2 }))

/-- The serialization formats of the three export calls. -/
inductive FileFormat where
  | csv
  | excel
  | parquet
deriving DecidableEq, Repr

/-- One file-write boundary interaction: each of `write_csv`,
`write_excel`, `write_parquet` serializes the table passed to it to the
given path in its format. -/
structure WriteEvent where
  format : FileFormat
  path : String
  table : List OutRow
deriving DecidableEq, Repr

/-- The final cell: `output_df.write_csv('output.csv')`;
`output_df.write_excel('output.xlsx')`;
`output_df.write_parquet('output.parquet')`. -/
def exportEvents (df : List Row) : List WriteEvent :=
  [⟨FileFormat.csv, "output.csv", output_df df⟩,
   ⟨FileFormat.excel, "output.xlsx", output_df df⟩,
   ⟨FileFormat.parquet, "output.parquet", output_df df⟩]

/-- A row after
`df.with_columns((pl.col("Actual Generation (GWh)") * 1000).alias("Generation_MWh"))`:
the three original columns, in order, followed by the new
`Generation_MWh` column. -/
structure RowMWh where
  date : Dt
  generation : ℚ
  source : String
  generation_MWh : ℚ
deriving DecidableEq, Repr

/-- The derive-column cell: append `Generation_MWh`, the generation
column multiplied by 1000. -/
def with_generation_MWh (df : List Row) : List RowMWh :=
  df.map (fun r => ⟨r.date, r.generation, r.source, r.generation * 1000⟩)

/-- One row of `generation_df`: columns `Hour`, `Hourly Generation`. -/
structure HourRow where
  hour : ℕ
  hourly_generation : ℚ
deriving DecidableEq, Repr

/-- Sort key of `generation_df`'s `.sort('Hour')`. -/
def hourLe (a b : HourRow) : Prop := a.hour ≤ b.hour

instance : DecidableRel hourLe := fun a b => by
  unfold hourLe; infer_instance

instance : IsTotal HourRow hourLe where
  total a b := Nat.le_total a.hour b.hour

instance : IsTrans HourRow hourLe where
  trans _ _ _ hab hbc := Nat.le_trans hab hbc

/-- The `generation_df` cell: derive `Hour = Date.dt.hour()`, group by
`Hour`, aggregate the mean of the generation column as
`Hourly Generation`, and sort by `Hour`.  Keys are enumerated in
first-appearance order; the sort key is the full (distinct) grouping key,
so every admissible execution produces this table. -/
def generation_df (df : List Row) : List HourRow :=
  List.insertionSort hourLe
    ((firstDedup (df.map (fun r => r.date.hour))).map (fun h =>
      ⟨h, qmean ((df.filter (fun r => r.date.hour = h)).map (·.generation))⟩))

/-- One row of `generation_by_hour_source_df` after the `select`: columns
`Hour`, `Primary Source`, `Hourly Generation`, in this order. -/
structure HsRow where
  hour : ℕ
  source : String
  hourly_generation : ℚ
deriving DecidableEq, Repr

/-- The deterministic prefix of the `generation_by_hour_source_df` cell:
`with_columns(pl.col("Date").dt.hour().alias("Hour"))`, then the window
expression
`pl.col("Actual Generation (GWh)").mean().over('Hour', 'Primary Source')`
(each row receives the mean of the generation values over all rows sharing
its hour and source), then
`select('Hour', 'Primary Source', "Hourly Generation")`. -/
def hour_source_window (df : List Row) : List HsRow :=
  df.map (fun r =>
    ⟨r.date.hour, r.source,
     qmean ((df.filter (fun x =>
       x.date.hour = r.date.hour ∧ x.source = r.source)).map (·.generation))⟩)

/-- `unique()` with its defaults (`maintain_order=False`, `keep='any'`):
the output is some enumeration, in unspecified order, of the distinct rows
of the input. -/
def uniqueRel (xs ys : List HsRow) : Prop :=
  ys.Nodup ∧ (∀ r ∈ xs, r ∈ ys) ∧ (∀ r ∈ ys, r ∈ xs)

instance : ∀ xs ys, Decidable (uniqueRel xs ys) := fun xs ys => by
  unfold uniqueRel; infer_instance

/-- Sort key of the final `.sort('Hour')`: the `Hour` column only. -/
def hsHourLe (a b : HsRow) : Prop := a.hour ≤ b.hour

instance : DecidableRel hsHourLe := fun a b => by
  unfold hsHourLe; infer_instance

/-- `sort('Hour')` with its default `maintain_order=False`: the output is
some permutation of the input that is weakly sorted by `Hour`; the
relative order of rows with equal `Hour` is unspecified. -/
def sortHourRel (xs ys : List HsRow) : Prop :=
  xs.Perm ys ∧ ys.Sorted hsHourLe

instance : ∀ xs ys, Decidable (sortHourRel xs ys) := fun xs ys => by
  unfold sortHourRel List.Sorted; infer_instance

/-- The `generation_by_hour_source_df` cell as a relation between the
input dataframe and the admissible result tables: the deterministic
window/select prefix followed by `unique()` and `sort('Hour')`. -/
def generation_by_hour_source_rel (df : List Row) (out : List HsRow) : Prop :=
  ∃ mid, uniqueRel (hour_source_window df) mid ∧ sortHourRel mid out

/-- The generated column names of the pivot: the distinct values of
`Primary Source`, in order of first appearance. -/
def pivotSources (df : List Row) : List String := firstDedup (df.map (·.source))

/-- The pivot cell: `df.pivot(values="Actual Generation (GWh)",
index="Date", on="Primary Source", aggregate_function="mean")`.  One row
per distinct `Date` (order of first appearance), one generated column per
distinct `Primary Source` value (order of first appearance); the cell at
row `d`, column `s` holds the mean of the generation values of the input
rows with `Date = d` and `Primary Source = s`, and null when no input row
matches. -/
def df_pivot (df : List Row) : List (Dt × List (Option ℚ)) :=
  (firstDedup (df.map (·.date))).map (fun d =>
    (d, (pivotSources df).map (fun s =>
      let g := (df.filter (fun r => r.date = d ∧ r.source = s)).map (·.generation)
      if g.isEmpty then none else some (qmean g))))

/-- Sort key of `.sort('Date')`: datetimes ordered by day, then hour,
then minute. -/
def dtLe (a b : Dt) : Prop :=
  a.day < b.day ∨ (a.day = b.day ∧
    (a.hour < b.hour ∨ (a.hour = b.hour ∧ a.minute ≤ b.minute)))

instance : DecidableRel dtLe := fun a b => by
  unfold dtLe; infer_instance

/-- Sort key of the per-date totals table: the `Date` column. -/
def dateTotalLe (a b : Dt × ℚ) : Prop := dtLe a.1 b.1

instance : DecidableRel dateTotalLe := fun a b => by
  unfold dateTotalLe; infer_instance

/-- Steps 1–3 of the rolling-mean cell:
`select(pl.col('Date'), pl.col('Actual Generation (GWh)').sum().over('Date'))`
(each row is paired with the total generation over all rows with its
`Date`), then `unique()`, then `sort('Date')`.  All input rows with the
same `Date` receive the same total, so distinct result rows have distinct
dates and every admissible execution of `unique().sort('Date')` yields
this table. -/
def date_totals (df : List Row) : List (Dt × ℚ) :=
  List.insertionSort dateTotalLe
    (firstDedup (df.map (fun r =>
      (r.date, qsum ((df.filter (fun x => x.date = r.date)).map (·.generation))))))

/-- The sliding-window worker behind `rolling_mean`: `acc` buffers the
trailing values of the processed prefix (at most `w - 1` of them).  At
each element the buffer is extended; once it reaches the window size `w`,
the mean of the `w` values ending at the current row is emitted and the
oldest value is dropped, otherwise null is emitted. -/
def rollingMeanGo (w : ℕ) (acc : List ℚ) : List ℚ → List (Option ℚ)
  | [] => []
  | x :: xs =>
    let acc' := acc ++ [x]
    if acc'.length = w then
      some (qsum acc' / w) :: rollingMeanGo w (acc'.drop 1) xs
    else
      none :: rollingMeanGo w acc' xs

/-- `pl.col(...).rolling_mean(w)`: the windowed mean over the `w` values
ending at each position; null while fewer than `w` values have been seen
(Polars' default `min_periods = window_size`). -/
def rolling_mean (w : ℕ) (xs : List ℚ) : List (Option ℚ) := rollingMeanGo w [] xs

/-- The final `select` of the rolling-mean cell: the `Date` column of the
per-date totals paired with the 24-row rolling mean of their totals
column. -/
def rolling_date_mean (df : List Row) : List (Dt × Option ℚ) :=
  ((date_totals df).map Prod.fst).zip
    (rolling_mean 24 ((date_totals df).map Prod.snd))

instance : IsTotal HsRow hsHourLe where
  total a b := Nat.le_total a.hour b.hour

instance : IsTrans HsRow hsHourLe where
  trans _ _ _ hab hbc := Nat.le_trans hab hbc

/-- One admissible execution of the `generation_by_hour_source_df` cell:
`unique()` enumerating the distinct rows in first-appearance order,
followed by a stable sort on `Hour`.  Used as the bound value in the
sequential notebook-state model. -/
def generation_by_hour_source_run (df : List Row) : List HsRow :=
  List.insertionSort hsHourLe (firstDedup (hour_source_window df))

/-- Descending sort key of `df.sort("Actual Generation (GWh)", descending=True)`. -/
def genDesc (a b : Row) : Prop := b.generation ≤ a.generation

instance : DecidableRel genDesc := fun a b => by
  unfold genDesc; infer_instance

/-- The interactive session's bindings.  `df` is bound once by the load
cell; the three later assignment cells bind the other names; every other
cell only evaluates and displays an expression. -/
structure NbEnv where
  df : List Row
  generation_df : Option (List HourRow)
  generation_by_hour_source_df : Option (List HsRow)
  output_df : Option (List OutRow)
deriving Repr

/-- The state after the load cell `df = pl.read_excel(data_path)`:
`df` holds the loaded table and no other name is bound yet. -/
def initEnv (t : List Row) : NbEnv :=
  { df := t, generation_df := none,
    generation_by_hour_source_df := none, output_df := none }

/-- `print(df.describe())` — displays summary statistics only. -/
def cellDescribe (e : NbEnv) : NbEnv := e

/-- `df.dtypes` — displays the column types only. -/
def cellDtypes (e : NbEnv) : NbEnv := e

/-- `df.columns` — displays the column names only. -/
def cellColumns (e : NbEnv) : NbEnv := e

/-- `df.schema` — displays the schema only. -/
def cellSchema (e : NbEnv) : NbEnv := e

/-- `df.select(["Date", "Actual Generation (GWh)", "Primary Source"])` —
evaluates a projection of `df` and displays it, binding nothing. -/
def cellSelect (e : NbEnv) : NbEnv :=
  let _ := e.df.map (fun r => (r.date, r.generation, r.source))
  e

/-- `df.rename({"Actual Generation (GWh)": "Generation", "Primary Source":
"Source"})` — evaluates a relabelled copy of `df` (same rows, same
values) and displays it, binding nothing. -/
def cellRename (e : NbEnv) : NbEnv :=
  let _ := e.df.map (fun r => (r.date, r.generation, r.source))
  e

/-- The derive-column cell — evaluates `with_generation_MWh` on `df` and
displays it, binding nothing. -/
def cellWithMWh (e : NbEnv) : NbEnv :=
  let _ := with_generation_MWh e.df
  e

/-- `df.filter(pl.col("Primary Source") == "Thermal")`. -/
def cellFilterThermal (e : NbEnv) : NbEnv :=
  let _ := e.df.filter (fun r => r.source = "Thermal")
  e

/-- `df.filter(pl.col("Actual Generation (GWh)") > 10)`. -/
def cellFilterGt (e : NbEnv) : NbEnv :=
  let _ := e.df.filter (fun r => r.generation > 10)
  e

/-- `df.sort("Actual Generation (GWh)", descending=True)`. -/
def cellSortDesc (e : NbEnv) : NbEnv :=
  let _ := List.insertionSort genDesc e.df
  e

/-- The `group_by("Primary Source").agg(sum, mean, count)` cell. -/
def cellGroupStats (e : NbEnv) : NbEnv :=
  let _ := (firstDedup (e.df.map (·.source))).map (fun s =>
    let g := (e.df.filter (fun r => r.source = s)).map (·.generation)
    (s, qsum g, qmean g, g.length))
  e

/-- The `group_by("Primary Source").agg(max)` cell. -/
def cellGroupMax (e : NbEnv) : NbEnv :=
  let _ := (firstDedup (e.df.map (·.source))).map (fun s =>
    (s, ((e.df.filter (fun r => r.source = s)).map (·.generation)).maximum))
  e

/-- `df.with_columns(pl.col("Date").dt.hour().alias("Hour"))`. -/
def cellWithHour (e : NbEnv) : NbEnv :=
  let _ := e.df.map (fun r => (r.date, r.generation, r.source, r.date.hour))
  e

/-- `generation_df = ...` — the only cell that binds `generation_df`. -/
def cellGenerationDf (e : NbEnv) : NbEnv :=
  { e with generation_df := some (generation_df e.df) }

/-- `px.line(generation_df, x='Hour', y='Hourly Generation')` — renders a
chart from the bound `generation_df`, binding nothing. -/
def cellChartLine (e : NbEnv) : NbEnv :=
  let _ := e.generation_df
  e

/-- `generation_by_hour_source_df = ...` — the only cell that binds
`generation_by_hour_source_df` (one admissible execution). -/
def cellGenerationByHourSourceDf (e : NbEnv) : NbEnv :=
  { e with
    generation_by_hour_source_df := some (generation_by_hour_source_run e.df) }

/-- `px.area(generation_by_hour_source_df, ...)` — renders a chart from
the bound `generation_by_hour_source_df`, binding nothing. -/
def cellChartArea (e : NbEnv) : NbEnv :=
  let _ := e.generation_by_hour_source_df
  e

/-- The pivot cell — evaluates `df_pivot` on `df` and displays it. -/
def cellPivot (e : NbEnv) : NbEnv :=
  let _ := df_pivot e.df
  e

/-- The rolling-mean cell — evaluates `rolling_date_mean` on `df` and
displays it. -/
def cellRolling (e : NbEnv) : NbEnv :=
  let _ := rolling_date_mean e.df
  e

/-- `output_df = ...` — the only cell that binds `output_df`. -/
def cellOutputDf (e : NbEnv) : NbEnv :=
  { e with output_df := some (output_df e.df) }

/-- The export cell — writes the bound `output_df` three times, binding
nothing. -/
def cellWrites (e : NbEnv) : NbEnv :=
  let _ := e.output_df
  e

/-- The code cells that follow the load cell, in execution order. -/
def cellsAfterLoad : List (NbEnv → NbEnv) :=
  [cellDescribe, cellDtypes, cellColumns, cellSchema,
   cellSelect, cellRename, cellWithMWh,
   cellFilterThermal, cellFilterGt, cellSortDesc,
   cellGroupStats, cellGroupMax,
   cellWithHour, cellGenerationDf, cellChartLine,
   cellGenerationByHourSourceDf, cellChartArea,
   cellPivot, cellRolling, cellOutputDf, cellWrites]

/-- Run the first `k` cells after the load, threading the session state. -/
def runCells (k : ℕ) (t : List Row) : NbEnv :=
  (cellsAfterLoad.take k).foldl (fun e c => c e) (initEnv t)

/-- Errors raised by the dataframe library (file access, parsing, schema
or type mismatches).  The notebook defines no error values of its own. -/
inductive LibError where
  | fileNotFound (path : String)
  | malformedData (msg : String)
  | schemaMismatch (msg : String)
deriving DecidableEq, Repr

/-- The notebook's fallible boundary, sequenced exactly as the source
sequences it: the `pl.read_excel` result feeds the (pure) transformation
pipeline ending in `output_df`, and the three writes run in order.  The
notebook contains no try/except, so every stage is composed by plain
sequencing: the first failing library call aborts the remaining calls and
its error surfaces unchanged. -/
def runExports (readExcel : Except LibError (List Row))
    (writeCsv writeXlsx writeParquet : List OutRow → Except LibError Unit) :
    Except LibError Unit := do
  let df ← readExcel
  let out := output_df df
  writeCsv out
  writeXlsx out
  writeParquet out

/-- A boundary or rendering event of one notebook cell. -/
inductive Ev where
  | load (path : String)
  | inspect
  | transform
  | chart
  | write (path : String)
deriving DecidableEq, Repr

/-- The notebook's code cells in execution order, abstracted to events:
the load cell `df = pl.read_excel(...)` (which also displays
`df.head()`), the four inspection cells (`describe`, `dtypes`, `columns`,
`schema`), ten transformation cells (select; rename; derive
`Generation_MWh`; filter on source; filter on threshold; sort descending;
two group-by/agg cells; derive `Hour`; `generation_df`), the first chart
(`px.line`), the `generation_by_hour_source_df` transformation, the
second chart (`px.area`), three more transformation cells (pivot;
rolling mean; `output_df`), and the three writes.  The import and
plot-template configuration cell performs no boundary interaction. -/
def notebookEvents : List Ev :=
  [Ev.load "../data/power_generation.xlsx", Ev.inspect,
   Ev.inspect, Ev.inspect, Ev.inspect, Ev.inspect,
   Ev.transform, Ev.transform, Ev.transform, Ev.transform, Ev.transform,
   Ev.transform, Ev.transform, Ev.transform, Ev.transform, Ev.transform,
   Ev.chart, Ev.transform, Ev.chart,
   Ev.transform, Ev.transform, Ev.transform,
   Ev.write "output.csv", Ev.write "output.xlsx", Ev.write "output.parquet"]

/-- Event classifiers used by the control-flow shape checkers. -/
def isInspect : Ev → Bool
  | Ev.inspect => true
  | _ => false

def isTransform : Ev → Bool
  | Ev.transform => true
  | _ => false

def isChart : Ev → Bool
  | Ev.chart => true
  | _ => false

def isTransformOrChart : Ev → Bool
  | Ev.transform => true
  | Ev.chart => true
  | _ => false

/-- The control-flow shape asserted by the claim: one load, then a
contiguous phase of inspections, then a contiguous phase of
transformations, then exactly two chart renders, then exactly three
writes, in this order, with nothing else. -/
def fivePhaseShape (es : List Ev) : Bool :=
  match es with
  | Ev.load _ :: rest =>
    match (rest.dropWhile isInspect).dropWhile isTransform with
    | [Ev.chart, Ev.chart, Ev.write _, Ev.write _, Ev.write _] => true
    | _ => false
  | _ => false

/-- The control-flow shape the notebook actually has: one load, then a
contiguous phase of inspections, then a phase of transformations with
exactly two chart renders interleaved, then exactly three writes, and no
other events. -/
def interleavedShape (es : List Ev) : Bool :=
  match es with
  | Ev.load _ :: rest =>
    ((rest.dropWhile isInspect).countP isChart == 2) &&
    match (rest.dropWhile isInspect).dropWhile isTransformOrChart with
    | [Ev.write _, Ev.write _, Ev.write _] => true
    | _ => false
  | _ => false

/-- **C10.** The derive-column cell adds exactly one new column
`Generation_MWh` whose value in every row equals 1000 times that row's
`Actual Generation (GWh)`, while leaving the number of rows, the order of
rows, and the values of every pre-existing column unchanged (the new
column is appended after the three original ones). -/
theorem with_generation_MWh_spec (df : List Row) :
    (with_generation_MWh df).length = df.length ∧
    (with_generation_MWh df).map
      (fun r => Row.mk r.date r.generation r.source) = df ∧
    (with_generation_MWh df).map (fun r => r.generation_MWh) =
      df.map (fun r => 1000 * r.generation) := by
  refine ⟨by simp [with_generation_MWh], ?_, ?_⟩
  · rw [with_generation_MWh, List.map_map]
    exact List.map_id'' (fun r => rfl) df
  · rw [with_generation_MWh, List.map_map]
    exact List.map_congr_left (fun r _ => mul_comm r.generation 1000)

/-- Every cell after the load leaves the binding of `df` unchanged: no
cell assigns to `df`. -/
theorem cells_preserve_df :
    ∀ c ∈ cellsAfterLoad, ∀ e : NbEnv, (c e).df = e.df := by
  intro c hc
  fin_cases hc <;> intro e <;> rfl

/-- Folding any list of `df`-preserving cell actions over a state leaves
its `df` component unchanged. -/
theorem foldl_preserves_df (l : List (NbEnv → NbEnv))
    (hl : ∀ c ∈ l, ∀ e : NbEnv, (c e).df = e.df) (e : NbEnv) :
    (l.foldl (fun a c => c a) e).df = e.df := by
  induction l generalizing e with
  | nil => rfl
  | cons c l ih =>
    rw [List.foldl_cons, ih (fun d hd => hl d (List.mem_cons_of_mem c hd)) (c e),
      hl c (List.mem_cons_self c l) e]

/-- **C4.** The single in-memory table `df` loaded at the start is never
mutated or rebound: each transformation returns a new table, and after
executing any prefix of the cells following the load, the binding of `df`
still equals the table the load produced — every later cell reads exactly
the loaded table. -/
theorem df_unchanged_across_cells (t : List Row) (k : ℕ) :
    (runCells k t).df = t :=
  foldl_preserves_df (cellsAfterLoad.take k)
    (fun c hc => cells_preserve_df c (List.mem_of_mem_take hc)) (initEnv t)

/-- **C5.** The notebook adds no error handling: composed exactly as the
source composes them (read, transform, three writes in order), a failure
of the load surfaces as that same library error with the writes never
consulted; a failure of any write surfaces as that same library error;
and when every library call succeeds the run succeeds.  No branch
catches, translates, or augments an error. -/
theorem runExports_propagates_errors :
    (∀ (e : LibError) (w₁ w₂ w₃ : List OutRow → Except LibError Unit),
      runExports (Except.error e) w₁ w₂ w₃ = Except.error e) ∧
    (∀ (df : List Row) (e : LibError)
      (w₂ w₃ : List OutRow → Except LibError Unit),
      runExports (Except.ok df) (fun _ => Except.error e) w₂ w₃ =
        Except.error e) ∧
    (∀ (df : List Row) (e : LibError)
      (w₃ : List OutRow → Except LibError Unit),
      runExports (Except.ok df) (fun _ => Except.ok ())
        (fun _ => Except.error e) w₃ = Except.error e) ∧
    (∀ (df : List Row) (e : LibError),
      runExports (Except.ok df) (fun _ => Except.ok ())
        (fun _ => Except.ok ()) (fun _ => Except.error e) = Except.error e) ∧
    (∀ df : List Row,
      runExports (Except.ok df) (fun _ => Except.ok ())
        (fun _ => Except.ok ()) (fun _ => Except.ok ()) = Except.ok ()) :=
  ⟨fun _ _ _ _ => rfl, fun _ _ _ _ => rfl, fun _ _ _ => rfl,
   fun _ _ => rfl, fun _ => rfl⟩

/-- **C2 (counterexample).** The notebook's control flow is not the
claimed contiguous five-phase sequence: the `generation_by_hour_source_df`
transformation runs between the two chart renders, and the pivot,
rolling-mean and `output_df` transformations run after both charts, so
phase (3) is not completed before phase (4) begins. -/
theorem notebook_not_five_phase : fivePhaseShape notebookEvents = false := by
  decide

/-- **C2 (amended).** The notebook's control flow is: one spreadsheet
load from a relative path, then a contiguous phase of schema/shape
inspections, then the dataframe transformations with exactly two chart
renders interleaved among them (rather than strictly after all of them),
and finally exactly three file writes; no other input or output boundary
interaction occurs. -/
theorem notebook_interleaved_phase : interleavedShape notebookEvents = true := by
  decide

/-- The final sort of `output_df` permutes the per-group rows. -/
theorem output_df_perm (df : List Row) :
    (output_df df).Perm ((firstDedup (df.map dateSourceKey)).map (fun k =>
      ({ date := k.1
         generation_gwh :=
           qsum ((df.filter (fun r => dateSourceKey r = k)).map (·.generation))
         source := k.2 } : OutRow))) :=
  List.perm_insertionSort outLe _

/-- The (date, source) keys of `output_df` are a permutation of the
distinct group keys of the input. -/
theorem output_df_keys_perm (df : List Row) :
    ((output_df df).map (fun r => (r.date, r.source))).Perm
      (firstDedup (df.map dateSourceKey)) := by
  have h := (output_df_perm df).map (fun r => (r.date, r.source))
  rw [List.map_map] at h
  convert h using 1
  exact (List.map_id'' (fun k => rfl) _).symm

/-- No two rows of `output_df` share a (date, source) key. -/
theorem output_df_keys_nodup (df : List Row) :
    ((output_df df).map (fun r => (r.date, r.source))).Nodup :=
  (output_df_keys_perm df).nodup_iff.mpr (nodup_firstDedup _)

/-- A (date, source) key appears in `output_df` exactly when some input
row carries that calendar date and source. -/
theorem output_df_key_mem (df : List Row) (d : ℤ) (s : String) :
    (d, s) ∈ (output_df df).map (fun r => (r.date, r.source)) ↔
      ∃ r ∈ df, r.date.day = d ∧ r.source = s := by
  rw [(output_df_keys_perm df).mem_iff, mem_firstDedup, List.mem_map]
  constructor
  · rintro ⟨r, hr, hk⟩
    exact ⟨r, hr, congrArg Prod.fst hk, congrArg Prod.snd hk⟩
  · rintro ⟨r, hr, hd, hs⟩
    exact ⟨r, hr, by simp [dateSourceKey, hd, hs]⟩

/-- `output_df` is weakly sorted by (date, source). -/
theorem output_df_sorted (df : List Row) :
    (output_df df).Sorted outLe :=
  List.sorted_insertionSort outLe _

/-- Every row of `output_df` carries the sum of the generation values of
the input rows with its calendar date and source. -/
theorem output_df_row_sum (df : List Row) :
    ∀ r ∈ output_df df,
      r.generation_gwh = qsum ((df.filter (fun x =>
        x.date.day = r.date ∧ x.source = r.source)).map (·.generation)) := by
  intro r hr
  rw [(output_df_perm df).mem_iff, List.mem_map] at hr
  obtain ⟨k, _, rfl⟩ := hr
  simp only
  congr 2
  apply List.filter_congr
  intro x _
  apply decide_eq_decide.mpr
  simp [dateSourceKey, Prod.ext_iff]

/-- **C8.** `output_df` contains exactly one row for every
(calendar date, source) pair occurring in the input — its key list is
duplicate-free and a pair appears in it iff some input row carries that
pair — and its rows are sorted ascending by date and, within equal dates,
ascending by source; this holds for every input dataframe. -/
theorem output_df_spec (df : List Row) :
    ((output_df df).map (fun r => (r.date, r.source))).Nodup ∧
    (∀ d s, (d, s) ∈ (output_df df).map (fun r => (r.date, r.source)) ↔
      ∃ r ∈ df, r.date.day = d ∧ r.source = s) ∧
    (output_df df).Sorted outLe :=
  ⟨output_df_keys_nodup df, output_df_key_mem df, output_df_sorted df⟩

/-- **C1.** The three export calls serialize the very same table: each of
the csv, xlsx and parquet write events carries exactly `output_df`, the
result of grouping the input rows by calendar date and primary source and
summing the generation column into `generation_gwh` — its rows' keys are
exactly the (date, source) pairs of the input and each row's
`generation_gwh` is the sum over its group — with columns `date`,
`generation_gwh`, `source`. -/
theorem exports_write_one_aggregated_table (df : List Row) :
    (exportEvents df).map (fun w => w.table) =
      [output_df df, output_df df, output_df df] ∧
    (exportEvents df).map (fun w => w.format) =
      [FileFormat.csv, FileFormat.excel, FileFormat.parquet] ∧
    (∀ r ∈ output_df df,
      r.generation_gwh = qsum ((df.filter (fun x =>
        x.date.day = r.date ∧ x.source = r.source)).map (·.generation))) ∧
    (∀ d s, (∃ r ∈ output_df df, r.date = d ∧ r.source = s) ↔
      ∃ x ∈ df, x.date.day = d ∧ x.source = s) := by
  refine ⟨rfl, rfl, output_df_row_sum df, fun d s => ?_⟩
  rw [← output_df_key_mem df d s, List.mem_map]
  constructor
  · rintro ⟨r, hr, hd, hs⟩
    exact ⟨r, hr, by rw [hd, hs]⟩
  · rintro ⟨r, hr, hk⟩
    exact ⟨r, hr, congrArg Prod.fst hk, congrArg Prod.snd hk⟩

/-- Concrete three-row input used by the witnesses: two rows share
calendar date 0 and source "A", one row has date 1 and source "B". -/
def exDf : List Row :=
  [⟨⟨0, 0, 0⟩, 2, "A"⟩, ⟨⟨0, 1, 0⟩, 4, "A"⟩, ⟨⟨1, 0, 0⟩, 5, "B"⟩]

/-- Evaluation of `output_df` on the concrete example input: the two "A"
rows of date 0 are summed to 6, the "B" row of date 1 stays 5. -/
theorem output_df_exDf : output_df exDf = [⟨0, 6, "A"⟩, ⟨1, 5, "B"⟩] := by
  norm_num [output_df, exDf, firstDedup, dateSourceKey, qsum,
    List.insertionSort, List.orderedInsert, outLe]

/-- Witness for the export claim at a concrete input: the aggregated row
(date 0, 6 GWh, source "A") is in the exported table and its value is the
sum of the two matching input rows. -/
theorem exports_write_one_aggregated_table_witness :
    (⟨0, 6, "A"⟩ : OutRow) ∈ output_df exDf ∧
    (⟨0, 6, "A"⟩ : OutRow).generation_gwh =
      qsum ((exDf.filter (fun x =>
        x.date.day = (0 : ℤ) ∧ x.source = "A")).map (·.generation)) :=
  ⟨by rw [output_df_exDf]; decide,
   (exports_write_one_aggregated_table exDf).2.2.1 ⟨0, 6, "A"⟩
     (by rw [output_df_exDf]; decide)⟩

/-- The sort of `generation_df` permutes the per-hour aggregate rows. -/
theorem generation_df_perm (df : List Row) :
    (generation_df df).Perm
      ((firstDedup (df.map (fun r => r.date.hour))).map (fun h =>
        (⟨h, qmean ((df.filter (fun r => r.date.hour = h)).map (·.generation))⟩ :
          HourRow))) :=
  List.perm_insertionSort hourLe _

/-- The `Hour` keys of `generation_df` are a permutation of the distinct
hours of the input. -/
theorem generation_df_hours_perm (df : List Row) :
    ((generation_df df).map (fun r => r.hour)).Perm
      (firstDedup (df.map (fun r => r.date.hour))) := by
  have h := (generation_df_perm df).map (fun r => r.hour)
  rw [List.map_map] at h
  convert h using 1
  exact (List.map_id'' (fun k => rfl) _).symm

/-- **C9.** `generation_df` contains exactly one row per distinct `Hour`
value extracted from the `Date` column — its hour list is duplicate-free
and an hour appears in it iff some input row's date has that hour — its
`Hourly Generation` for each hour equals the mean of the generation
values of all input rows with that hour, and its rows are sorted
ascending by `Hour`. -/
theorem generation_df_spec (df : List Row) :
    ((generation_df df).map (fun r => r.hour)).Nodup ∧
    (∀ h, h ∈ (generation_df df).map (fun r => r.hour) ↔
      h ∈ df.map (fun r => r.date.hour)) ∧
    (∀ row ∈ generation_df df,
      row.hourly_generation =
        qmean ((df.filter (fun r => r.date.hour = row.hour)).map (·.generation))) ∧
    (generation_df df).Sorted hourLe := by
  refine ⟨(generation_df_hours_perm df).nodup_iff.mpr (nodup_firstDedup _),
    fun h => ?_, ?_, List.sorted_insertionSort hourLe _⟩
  · rw [(generation_df_hours_perm df).mem_iff, mem_firstDedup]
  · intro row hrow
    rw [(generation_df_perm df).mem_iff, List.mem_map] at hrow
    obtain ⟨h, _, rfl⟩ := hrow
    rfl

/-- Evaluation of `generation_df` on the concrete example input: hour 0
averages the generations 2 and 5 to 7/2, hour 1 keeps 4. -/
theorem generation_df_exDf :
    generation_df exDf = [⟨0, 7/2⟩, ⟨1, 4⟩] := by
  norm_num [generation_df, exDf, firstDedup, qmean, qsum,
    List.insertionSort, List.orderedInsert, hourLe]

/-- Witness for the hourly-aggregation claim at a concrete input: the row
for hour 1 is in `generation_df` and its value is the mean of the single
matching input row. -/
theorem generation_df_spec_witness :
    (⟨1, 4⟩ : HourRow) ∈ generation_df exDf ∧
    (⟨1, 4⟩ : HourRow).hourly_generation =
      qmean ((exDf.filter (fun r =>
        r.date.hour = (⟨1, 4⟩ : HourRow).hour)).map (·.generation)) :=
  ⟨by rw [generation_df_exDf]; decide,
   (generation_df_spec exDf).2.2.1 ⟨1, 4⟩ (by rw [generation_df_exDf]; decide)⟩

/-- In the pointwise zip of a mapped list with the list itself, every
pair's first component is the image of its second. -/
theorem zip_map_self (f : α → β) (l : List α) :
    ∀ x ∈ (l.map f).zip l, x.1 = f x.2 := by
  intro x hx
  have h := List.zip_map' f id l
  rw [List.map_id] at h
  rw [h, List.mem_map] at hx
  obtain ⟨a, _, rfl⟩ := hx
  rfl

/-- The index column of the pivot is the list of distinct `Date` values
in order of first appearance. -/
theorem df_pivot_dates_eq (df : List Row) :
    (df_pivot df).map Prod.fst = firstDedup (df.map (·.date)) := by
  unfold df_pivot
  rw [List.map_map]
  exact List.map_id'' (fun d => rfl) _

/-- **C7.** The pivot turns distinct values of `Primary Source` into new
columns: it produces one row per distinct `Date` (duplicate-free, and a
date appears iff some input row carries it), one column per distinct
`Primary Source` value (duplicate-free, and a source appears iff some
input row carries it), and the cell in row `d` under column `s` holds the
mean of the generation values of the input rows with that date and
source — null when no input row matches. -/
theorem df_pivot_spec (df : List Row) :
    ((df_pivot df).map Prod.fst).Nodup ∧
    (∀ d, d ∈ (df_pivot df).map Prod.fst ↔ d ∈ df.map (fun r => r.date)) ∧
    (pivotSources df).Nodup ∧
    (∀ s, s ∈ pivotSources df ↔ s ∈ df.map (fun r => r.source)) ∧
    (∀ p ∈ df_pivot df, p.2.length = (pivotSources df).length ∧
      ∀ c ∈ p.2.zip (pivotSources df),
        c.1 = (if ((df.filter (fun r =>
                r.date = p.1 ∧ r.source = c.2)).map (·.generation)).isEmpty
          then none
          else some (qmean ((df.filter (fun r =>
                r.date = p.1 ∧ r.source = c.2)).map (·.generation))))) := by
  refine ⟨?_, fun d => ?_, nodup_firstDedup _, fun s => mem_firstDedup _ s, ?_⟩
  · rw [df_pivot_dates_eq]
    exact nodup_firstDedup _
  · rw [df_pivot_dates_eq, mem_firstDedup]
  · intro p hp
    unfold df_pivot at hp
    rw [List.mem_map] at hp
    obtain ⟨d, _, rfl⟩ := hp
    refine ⟨by simp, ?_⟩
    intro c hc
    exact zip_map_self _ (pivotSources df) c hc

/-- Evaluation of the pivot on the concrete example input: three distinct
dates, sources "A" and "B"; cells without a matching (date, source) pair
are null. -/
theorem df_pivot_exDf :
    df_pivot exDf =
      [(⟨0, 0, 0⟩, [some 2, none]), (⟨0, 1, 0⟩, [some 4, none]),
       (⟨1, 0, 0⟩, [none, some 5])] := by
  simp +decide [df_pivot, pivotSources, exDf, firstDedup, qmean, qsum]

/-- Evaluation of the pivot's generated column names on the example. -/
theorem pivotSources_exDf : pivotSources exDf = ["A", "B"] := by
  simp [pivotSources, exDf, firstDedup]

/-- Witness for the pivot claim at a concrete input: the row of date
(1,0,0) is in the pivot, its cell under column "B" is paired with "B" in
the zip, and that cell is the mean of the matching input rows. -/
theorem df_pivot_spec_witness :
    ((⟨1, 0, 0⟩ : Dt), ([none, some 5] : List (Option ℚ))) ∈ df_pivot exDf ∧
    ((some (5 : ℚ), "B") ∈
      ([none, some 5] : List (Option ℚ)).zip (pivotSources exDf)) ∧
    (some (5 : ℚ), "B").1 =
      (if ((exDf.filter (fun r =>
            r.date = (⟨1, 0, 0⟩ : Dt) ∧ r.source = "B")).map (·.generation)).isEmpty
        then none
        else some (qmean ((exDf.filter (fun r =>
            r.date = (⟨1, 0, 0⟩ : Dt) ∧ r.source = "B")).map (·.generation)))) :=
  ⟨by rw [df_pivot_exDf]; decide,
   by rw [pivotSources_exDf]; decide,
   ((df_pivot_spec exDf).2.2.2.2 (⟨1, 0, 0⟩, [none, some 5])
      (by rw [df_pivot_exDf]; decide)).2 (some 5, "B")
      (by rw [pivotSources_exDf]; decide)⟩

/-- Two-row example input for the hour/source pipeline: both rows share
hour 0 but have different sources, so the final sort key does not
separate them. -/
def exDfHs : List Row := [⟨⟨0, 0, 0⟩, 1, "A"⟩, ⟨⟨0, 0, 0⟩, 2, "B"⟩]

/-- One admissible output of the pipeline on `exDfHs`: "A" row first. -/
def exHsOut1 : List HsRow := [⟨0, "A", 1⟩, ⟨0, "B", 2⟩]

/-- Another admissible output of the pipeline on `exDfHs`: "B" row
first. -/
def exHsOut2 : List HsRow := [⟨0, "B", 2⟩, ⟨0, "A", 1⟩]

/-- Evaluation of the deterministic window/select prefix on the
example: each row is its own (hour, source) group, so its window mean is
its own generation value. -/
theorem hour_source_window_exDfHs :
    hour_source_window exDfHs = [⟨0, "A", 1⟩, ⟨0, "B", 2⟩] := by
  simp +decide [hour_source_window, exDfHs, qmean, qsum]

/-- **C6 (counterexample).** The hour/source pipeline is not a function
of its input dataframe alone: `unique()` (defaults `maintain_order=False`,
`keep='any'`) leaves the enumeration order of the distinct rows
unspecified, and the final `sort('Hour')` (default `maintain_order=False`)
leaves the relative order of rows with equal `Hour` unspecified.  On a
two-row input whose rows share the hour but differ in source, both orders
of the two result rows are admissible, so two runs of the same
transformation on the same input may return different dataframes. -/
theorem generation_by_hour_source_not_deterministic :
    generation_by_hour_source_rel exDfHs exHsOut1 ∧
    generation_by_hour_source_rel exDfHs exHsOut2 ∧
    exHsOut1 ≠ exHsOut2 :=
  ⟨⟨exHsOut1, by rw [hour_source_window_exDfHs]; decide, by decide⟩,
   ⟨exHsOut2, by rw [hour_source_window_exDfHs]; decide, by decide⟩,
   by decide⟩

/-- **C6 (amended).** The hour/source pipeline is deterministic up to row
order: any two admissible outputs for the same input contain exactly the
same rows with the same multiplicities (they are permutations of each
other), and every admissible output is weakly sorted by `Hour`; only the
relative order of rows with equal `Hour` is left open by the library's
`unique` and `sort` contracts. -/
theorem generation_by_hour_source_perm (df : List Row)
    (out₁ out₂ : List HsRow)
    (h₁ : generation_by_hour_source_rel df out₁)
    (h₂ : generation_by_hour_source_rel df out₂) :
    out₁.Perm out₂ ∧ out₁.Sorted hsHourLe := by
  obtain ⟨m₁, ⟨hn₁, hin₁, hout₁⟩, hp₁, hsort₁⟩ := h₁
  obtain ⟨m₂, ⟨hn₂, hin₂, hout₂⟩, hp₂, _⟩ := h₂
  have hm : m₁.Perm m₂ :=
    (List.perm_ext_iff_of_nodup hn₁ hn₂).mpr (fun a =>
      ⟨fun ha => hin₂ a (hout₁ a ha), fun ha => hin₁ a (hout₂ a ha)⟩)
  exact ⟨hp₁.symm.trans (hm.trans hp₂), hsort₁⟩

/-- Witness for the amended hour/source claim: on the concrete example,
the two admissible outputs are related and indeed permutations of each
other, the first being weakly sorted by `Hour`. -/
theorem generation_by_hour_source_perm_witness :
    generation_by_hour_source_rel exDfHs exHsOut1 ∧
    generation_by_hour_source_rel exDfHs exHsOut2 ∧
    (exHsOut1.Perm exHsOut2 ∧ exHsOut1.Sorted hsHourLe) := by
  have h₁ : generation_by_hour_source_rel exDfHs exHsOut1 :=
    ⟨exHsOut1, by rw [hour_source_window_exDfHs]; decide, by decide⟩
  have h₂ : generation_by_hour_source_rel exDfHs exHsOut2 :=
    ⟨exHsOut2, by rw [hour_source_window_exDfHs]; decide, by decide⟩
  exact ⟨h₁, h₂, generation_by_hour_source_perm exDfHs exHsOut1 exHsOut2 h₁ h₂⟩

/-- The last `n` elements of a list. -/
def lastN (n : ℕ) (l : List α) : List α := l.drop (l.length - n)

theorem lastN_length (n : ℕ) (l : List α) :
    (lastN n l).length = min n l.length := by
  simp only [lastN, List.length_drop]
  omega

theorem lastN_of_length_le (n : ℕ) (l : List α) (h : l.length ≤ n) :
    lastN n l = l := by
  simp [lastN, Nat.sub_eq_zero_of_le h]

theorem lastN_append_one (n : ℕ) (l : List α) (x : α) :
    lastN n l ++ [x] = lastN (n + 1) (l ++ [x]) := by
  unfold lastN
  rw [List.length_append, List.length_cons, List.length_nil,
    show l.length + (0 + 1) - (n + 1) = l.length - n by omega,
    List.drop_append_of_le_length (by omega)]

theorem lastN_drop_one (w : ℕ) (l : List α) (hw : 0 < w) (h : w ≤ l.length) :
    (lastN w l).drop 1 = lastN (w - 1) l := by
  unfold lastN
  rw [List.drop_drop]
  congr 1
  omega

theorem rmTailCongr (w : ℕ) (p : List ℚ) (x : ℚ) (xs : List ℚ) :
    (List.range xs.length).map (fun i =>
      if (p ++ [x]).length + i + 1 < w then none
      else some (qsum (lastN w ((p ++ [x]) ++ xs.take (i + 1))) / w)) =
    (List.range xs.length).map ((fun i =>
      if p.length + i + 1 < w then none
      else some (qsum (lastN w (p ++ (x :: xs).take (i + 1))) / w)) ∘ Nat.succ) := by
  apply List.map_congr_left
  intro i _
  simp only [Function.comp_apply, List.length_append, List.length_cons,
    List.length_nil, Nat.succ_eq_add_one, List.take_succ_cons]
  rw [show p.length + (0 + 1) + i + 1 = p.length + (i + 1) + 1 by omega,
    List.append_assoc, List.singleton_append]

theorem rollingMeanGo_eq (w : ℕ) (hw : 0 < w) (xs : List ℚ) :
    ∀ p : List ℚ, rollingMeanGo w (lastN (w - 1) p) xs =
      (List.range xs.length).map (fun i =>
        if p.length + i + 1 < w then none
        else some (qsum (lastN w (p ++ xs.take (i + 1))) / w)) := by
  induction xs with
  | nil => intro p; rfl
  | cons x xs ih =>
    intro p
    have hacc : lastN (w - 1) p ++ [x] = lastN w (p ++ [x]) := by
      have h1 := lastN_append_one (w - 1) p x
      rwa [Nat.sub_add_cancel hw] at h1
    have hlen : (lastN w (p ++ [x])).length = min w (p.length + 1) := by
      rw [lastN_length, List.length_append, List.length_cons, List.length_nil]
    simp only [rollingMeanGo, hacc]
    rw [List.length_cons, List.range_succ_eq_map, List.map_cons, List.map_map]
    by_cases hc : w ≤ p.length + 1
    · rw [if_pos (by omega : (lastN w (p ++ [x])).length = w)]
      congr 1
      · rw [if_neg (by omega), List.take_succ_cons, List.take_zero]
      · rw [lastN_drop_one w (p ++ [x]) hw
            (by simp only [List.length_append, List.length_cons, List.length_nil]; omega),
          ih (p ++ [x]), rmTailCongr]
    · rw [if_neg (by omega : ¬ (lastN w (p ++ [x])).length = w)]
      congr 1
      · rw [if_pos (by omega)]
      · rw [show lastN w (p ++ [x]) = lastN (w - 1) (p ++ [x]) by
            rw [lastN_of_length_le w _ (by
                simp only [List.length_append, List.length_cons, List.length_nil]
                omega),
              lastN_of_length_le (w - 1) _ (by
                simp only [List.length_append, List.length_cons, List.length_nil]
                omega)],
          ih (p ++ [x]), rmTailCongr]


/-- Unfolding `rolling_mean` at the empty prefix: position `i` is null
while `i + 1 < w`, and otherwise the mean of the last `w` of the first
`i + 1` values. -/
theorem rolling_mean_eq (w : ℕ) (hw : 0 < w) (xs : List ℚ) :
    rolling_mean w xs = (List.range xs.length).map (fun i =>
      if i + 1 < w then none
      else some (qsum (lastN w (xs.take (i + 1))) / w)) := by
  have h := rollingMeanGo_eq w hw xs []
  rw [show lastN (w - 1) ([] : List ℚ) = [] by simp [lastN]] at h
  simpa [rolling_mean] using h

/-- **C3.** The rolling mean of the rolling-mean cell is a windowed
aggregation over a fixed number of preceding rows: the cell pairs the
dates of the sorted per-date totals table with `rolling_mean(24)` of the
totals column, whose value at position `i` is null while fewer than 24
rows precede (Polars' `min_periods` defaults to the window size), and
otherwise the mean of the window of exactly 24 totals ending at (and
determined relative to) that row. -/
theorem rolling_date_mean_spec (df : List Row) :
    rolling_date_mean df =
      ((date_totals df).map Prod.fst).zip
        (rolling_mean 24 ((date_totals df).map Prod.snd)) ∧
    rolling_mean 24 ((date_totals df).map Prod.snd) =
      (List.range ((date_totals df).map Prod.snd).length).map (fun i =>
        if i + 1 < 24 then none
        else some (qsum (lastN 24
          (((date_totals df).map Prod.snd).take (i + 1))) / ((24 : ℕ) : ℚ))) ∧
    (∀ i, 24 ≤ i + 1 → i + 1 ≤ ((date_totals df).map Prod.snd).length →
      (lastN 24 (((date_totals df).map Prod.snd).take (i + 1))).length = 24) := by
  refine ⟨rfl, rolling_mean_eq 24 (by norm_num) _, ?_⟩
  intro i h1 h2
  rw [lastN_length, List.length_take]
  omega

/-- Twenty-four rows on twenty-four consecutive distinct dates, used to
exercise a full rolling window. -/
def exDf24 : List Row :=
  [⟨⟨0, 0, 0⟩, 1, "A"⟩,
   ⟨⟨1, 0, 0⟩, 1, "A"⟩,
   ⟨⟨2, 0, 0⟩, 1, "A"⟩,
   ⟨⟨3, 0, 0⟩, 1, "A"⟩,
   ⟨⟨4, 0, 0⟩, 1, "A"⟩,
   ⟨⟨5, 0, 0⟩, 1, "A"⟩,
   ⟨⟨6, 0, 0⟩, 1, "A"⟩,
   ⟨⟨7, 0, 0⟩, 1, "A"⟩,
   ⟨⟨8, 0, 0⟩, 1, "A"⟩,
   ⟨⟨9, 0, 0⟩, 1, "A"⟩,
   ⟨⟨10, 0, 0⟩, 1, "A"⟩,
   ⟨⟨11, 0, 0⟩, 1, "A"⟩,
   ⟨⟨12, 0, 0⟩, 1, "A"⟩,
   ⟨⟨13, 0, 0⟩, 1, "A"⟩,
   ⟨⟨14, 0, 0⟩, 1, "A"⟩,
   ⟨⟨15, 0, 0⟩, 1, "A"⟩,
   ⟨⟨16, 0, 0⟩, 1, "A"⟩,
   ⟨⟨17, 0, 0⟩, 1, "A"⟩,
   ⟨⟨18, 0, 0⟩, 1, "A"⟩,
   ⟨⟨19, 0, 0⟩, 1, "A"⟩,
   ⟨⟨20, 0, 0⟩, 1, "A"⟩,
   ⟨⟨21, 0, 0⟩, 1, "A"⟩,
   ⟨⟨22, 0, 0⟩, 1, "A"⟩,
   ⟨⟨23, 0, 0⟩, 1, "A"⟩]

/-- The per-date totals table of `exDf24` has one row per date, so 24
rows. -/
theorem date_totals_exDf24_len :
    ((date_totals exDf24).map Prod.snd).length = 24 := by
  simp +decide [date_totals, exDf24, firstDedup, qsum,
    List.insertionSort, List.orderedInsert, dateTotalLe, dtLe]

/-- Witness for the rolling-mean claim: at position 23 of the 24-row
totals table the window is full and holds exactly 24 rows. -/
theorem rolling_date_mean_spec_witness :
    24 ≤ 23 + 1 ∧ 23 + 1 ≤ ((date_totals exDf24).map Prod.snd).length ∧
    (lastN 24 (((date_totals exDf24).map Prod.snd).take (23 + 1))).length = 24 :=
  ⟨by norm_num, by rw [date_totals_exDf24_len],
   (rolling_date_mean_spec exDf24).2.2 23 (by norm_num)
     (by rw [date_totals_exDf24_len])⟩
